import Mathlib

/-!
Verification development for the Kwork response bot (src/bot.py).

The Python source is shallowly embedded: the sqlite table `user_stacks` is a
map from user id to an optional row, every database-touching function becomes
a pure function on that map, the retrying AI client becomes a function of the
per-attempt outcomes, and the regex-based response parsing is implemented
character by character with the exact backtracking semantics of the two
patterns used in the source.
-/

namespace KworkBot

/-- Whitespace class used by Python's `str.strip`, `str.lower` handling and the
regex `\s` class (ASCII part; the source only ever meets ASCII whitespace). -/
def isWs (c : Char) : Bool :=
  c == ' ' || c == '\t' || c == '\n' || c == '\r' || c == '\x0b' || c == '\x0c'

/-- Case folding for the alphabets the source uses: ASCII letters and the
Cyrillic letters А–Я and Ё.  This is Python's `str.lower` restricted to these
alphabets, and also the folding performed by `re.IGNORECASE` on them. -/
def charFold (c : Char) : Char :=
  if 'A' ≤ c && c ≤ 'Z' then Char.ofNat (c.toNat + 32)
  else if 'А' ≤ c && c ≤ 'Я' then Char.ofNat (c.toNat + 32)
  else if c = 'Ё' then 'ё'
  else c

/-- Python `str.strip()` on the character list. -/
def pyStripList (cs : List Char) : List Char :=
  ((cs.dropWhile isWs).reverse.dropWhile isWs).reverse

/-- Python `str.strip()`. -/
def pyStrip (s : String) : String :=
  String.mk (pyStripList s.data)

/-- Python `str.lower()` (over the alphabets occurring in the source). -/
def pyLower (s : String) : String :=
  String.mk (s.data.map charFold)

/-! ## Data model: the `user_stacks` table (src/bot.py, `init_db`) -/

/-- One row of `user_stacks`: nullable TEXT columns `name`, `gender`,
`tech_stack` and the `created_at TIMESTAMP DEFAULT CURRENT_TIMESTAMP` column
(timestamps are abstracted to `Nat`). -/
structure Row where
  name : Option String
  gender : Option String
  tech_stack : Option String
  created_at : Nat
deriving Repr, DecidableEq

/-- The table keyed by `user_id INTEGER PRIMARY KEY`. -/
def Db : Type := Int → Option Row

/-- The dict returned by `get_user_data` (keys `name`, `gender`, `tech_stack`). -/
structure Profile where
  name : Option String
  gender : Option String
  tech_stack : Option String
deriving Repr, DecidableEq

/-- `save_user_stack(user_id, stack, name=None, gender=None)` (src/bot.py:87).
`INSERT OR REPLACE` with columns `(user_id, tech_stack, name, gender)` replaces
the whole row; the omitted `created_at` column takes its default, the current
timestamp `now`. -/
def save_user_stack (db : Db) (now : Nat) (uid : Int) (stack : String)
    (name gender : Option String) : Db :=
  fun i => if i = uid then
    some { name := name, gender := gender, tech_stack := some stack, created_at := now }
  else db i

/-- The `name if name is not None else current_name` update rule of
`update_user_info`. -/
def optKeep (new old : Option String) : Option String :=
  match new with
  | some v => some v
  | none => old

/-- `update_user_info(user_id, name=None, gender=None)` (src/bot.py:103).
If a row exists, `UPDATE` sets only `name` and `gender` (each kept at its
current value when the argument is `None`); otherwise `INSERT` a row with the
given fields and `tech_stack = ''`. -/
def update_user_info (db : Db) (now : Nat) (uid : Int)
    (name gender : Option String) : Db :=
  match db uid with
  | some r => fun i => if i = uid then
      some { r with name := optKeep name r.name, gender := optKeep gender r.gender }
    else db i
  | none => fun i => if i = uid then
      some { name := name, gender := gender, tech_stack := some "", created_at := now }
    else db i

/-- `get_user_data(user_id)` (src/bot.py:136).  The `fail` flag models a raised
sqlite exception: the `except` branch logs and returns `None`, exactly the
value returned when no row exists. -/
def get_user_data (fail : Bool) (db : Db) (uid : Int) : Option Profile :=
  if fail then none
  else match db uid with
    | some r => some { name := r.name, gender := r.gender, tech_stack := r.tech_stack }
    | none => none

/-- Python truthiness of an optional TEXT column value (`None` and `''` are
falsy), as used by `all([...])` in `is_profile_complete`. -/
def truthyStr : Option String → Bool
  | none => false
  | some s => !(s == "")

/-- `is_profile_complete(user_id)` (src/bot.py:157). -/
def is_profile_complete (fail : Bool) (db : Db) (uid : Int) : Bool :=
  match get_user_data fail db uid with
  | none => false
  | some p => truthyStr p.name && truthyStr p.gender && truthyStr p.tech_stack

/-- The persistence step of `handle_stack_input` (src/bot.py:505-514): read the
row; if it exists run `UPDATE user_stacks SET tech_stack = ?`, otherwise call
`save_user_stack(user_id, stack)`.  This composition is the spec's
`upsertStack`. -/
def handle_stack_persist (db : Db) (now : Nat) (uid : Int) (stack : String) : Db :=
  match get_user_data false db uid with
  | some _ => fun i => if i = uid then
      (db i).map (fun r => { r with tech_stack := some stack })
    else db i
  | none => save_user_stack db now uid stack none none

/-! ## Claim theorems for the ProfileStore operations -/

theorem truthyStr_iff (o : Option String) :
    truthyStr o = true ↔ ∃ s, o = some s ∧ s ≠ "" := by
  cases o with
  | none => simp [truthyStr]
  | some s => simp [truthyStr]

/-- Claim C1: for a user with a profile row, the stack-upsert operation of
`handle_stack_input` replaces only `tech_stack`, keeping `name`, `gender` and
`created_at`; for a user with no row it inserts a row with only `tech_stack`
set (name and gender NULL, `created_at` defaulted to the current time).
Other users' rows are untouched. -/
theorem C1_thm (db : Db) (now : Nat) (uid : Int) (stack : String) :
    (∀ r, db uid = some r →
      handle_stack_persist db now uid stack uid = some { r with tech_stack := some stack }) ∧
    (db uid = none →
      handle_stack_persist db now uid stack uid =
        some { name := none, gender := none, tech_stack := some stack, created_at := now }) ∧
    (∀ j, j ≠ uid → handle_stack_persist db now uid stack j = db j) := by
  refine ⟨?_, ?_, ?_⟩
  · intro r h
    simp [handle_stack_persist, get_user_data, h]
  · intro h
    simp [handle_stack_persist, get_user_data, h, save_user_stack]
  · intro j hj
    cases h : db uid with
    | none => simp [handle_stack_persist, get_user_data, h, save_user_stack, hj]
    | some r => simp [handle_stack_persist, get_user_data, h, hj]

/-- Claim C3: `update_user_info` is a partial update: with no row present it
creates one holding exactly the provided fields and an empty stack; with a row
present it overwrites only the provided fields — in particular updating only
the name leaves `gender`, `tech_stack` and `created_at` unchanged.  Other
users' rows are untouched. -/
theorem C3_thm (db : Db) (now : Nat) (uid : Int) :
    (∀ name gender, db uid = none →
      update_user_info db now uid name gender uid =
        some { name := name, gender := gender, tech_stack := some "", created_at := now }) ∧
    (∀ r name gender, db uid = some r →
      update_user_info db now uid name gender uid =
        some { name := optKeep name r.name, gender := optKeep gender r.gender,
               tech_stack := r.tech_stack, created_at := r.created_at }) ∧
    (∀ r n, db uid = some r →
      update_user_info db now uid (some n) none uid =
        some { name := some n, gender := r.gender, tech_stack := r.tech_stack,
               created_at := r.created_at }) ∧
    (∀ j name gender, j ≠ uid → update_user_info db now uid name gender j = db j) := by
  refine ⟨?_, ?_, ?_, ?_⟩
  · intro name gender h
    simp [update_user_info, h]
  · intro r name gender h
    simp [update_user_info, h]
  · intro r n h
    simp [update_user_info, h, optKeep]
  · intro j name gender hj
    cases h : db uid with
    | none => simp [update_user_info, h, hj]
    | some r => simp [update_user_info, h, hj]

theorem C1_witness :
    handle_stack_persist
        (fun i => if i = 1 then
            some { name := some "Ann", gender := some "женский",
                   tech_stack := some "old stack", created_at := 7 }
          else none) 9 1 "python and sql" 1 =
      some { name := some "Ann", gender := some "женский",
             tech_stack := some "python and sql", created_at := 7 } ∧
    handle_stack_persist (fun _ => none) 9 2 "python and sql" 2 =
      some { name := none, gender := none,
             tech_stack := some "python and sql", created_at := 9 } :=
  ⟨(C1_thm _ 9 1 "python and sql").1
      { name := some "Ann", gender := some "женский",
        tech_stack := some "old stack", created_at := 7 } rfl,
   (C1_thm (fun _ => none) 9 2 "python and sql").2.1 rfl⟩

theorem C3_witness :
    update_user_info (fun _ => none) 5 1 (some "Ann") none 1 =
      some { name := some "Ann", gender := none, tech_stack := some "", created_at := 5 } ∧
    update_user_info
        (fun i => if i = 1 then
            some { name := some "Bob", gender := some "мужской",
                   tech_stack := some "js", created_at := 3 }
          else none) 5 1 (some "Ann") none 1 =
      some { name := some "Ann", gender := some "мужской",
             tech_stack := some "js", created_at := 3 } :=
  ⟨(C3_thm (fun _ => none) 5 1).1 (some "Ann") none rfl,
   (C3_thm _ 5 1).2.2.1
      { name := some "Bob", gender := some "мужской",
        tech_stack := some "js", created_at := 3 } "Ann" rfl⟩

/-- Claim C4: `is_profile_complete` is true iff `name`, `gender` and
`tech_stack` are all present and non-empty (Python truthiness of the row's
columns), and it is false — not an error — when no row exists. -/
theorem C4_thm (db : Db) (uid : Int) :
    (db uid = none → is_profile_complete false db uid = false) ∧
    (∀ r, db uid = some r →
      (is_profile_complete false db uid = true ↔
        ((∃ s, r.name = some s ∧ s ≠ "") ∧ (∃ s, r.gender = some s ∧ s ≠ "") ∧
         (∃ s, r.tech_stack = some s ∧ s ≠ "")))) := by
  constructor
  · intro h
    simp [is_profile_complete, get_user_data, h]
  · intro r h
    simp only [is_profile_complete, get_user_data, h, if_neg (by simp : ¬False)]
    simp [Bool.and_eq_true, truthyStr_iff, and_assoc]

theorem C4_witness :
    is_profile_complete false (fun _ => none) 1 = false ∧
    (is_profile_complete false
        (fun i => if i = 1 then
            some { name := some "Ann", gender := some "", tech_stack := some "py", created_at := 0 }
          else none) 1 = true ↔
      ((∃ s, (some "Ann" : Option String) = some s ∧ s ≠ "") ∧
       (∃ s, (some "" : Option String) = some s ∧ s ≠ "") ∧
       (∃ s, (some "py" : Option String) = some s ∧ s ≠ ""))) :=
  ⟨(C4_thm (fun _ => none) 1).1 rfl,
   (C4_thm _ 1).2
      { name := some "Ann", gender := some "", tech_stack := some "py", created_at := 0 } rfl⟩

/-! ## ExternalGenerationClient: `ask_ai_api` (src/bot.py:209-267) -/

/-- Literal (case-sensitive) marker check at the head of a text. -/
def startsWithLit : List Char → List Char → Bool
  | [], _ => true
  | _ :: _, [] => false
  | p :: ps, c :: cs => (p == c) && startsWithLit ps cs

/-- Split at the first occurrence of the marker `m`: the text before it and
the text after it. -/
def splitFirst (m : List Char) : List Char → Option (List Char × List Char)
  | [] => none
  | c :: cs =>
    if startsWithLit m (c :: cs) then some ([], (c :: cs).drop m.length)
    else match splitFirst m cs with
      | some (pre, rest) => some (c :: pre, rest)
      | none => none

def thinkOpen : List Char := "<think>".data

def thinkClose : List Char := "</think>".data

/-- `re.sub(r'<think>.*?</think>', '', text, flags=re.DOTALL)`: repeatedly
remove the leftmost non-greedy match (nearest closing marker after the first
opening marker); text before the first opening marker, or with no closing
marker after it, is kept.  The fuel bounds the recursion; every removal
strictly shortens the text, so starting fuel `cs.length` never runs out. -/
def stripThinkFuel : Nat → List Char → List Char
  | 0, cs => cs
  | fuel + 1, cs =>
    match splitFirst thinkOpen cs with
    | none => cs
    | some (pre, rest) =>
      match splitFirst thinkClose rest with
      | none => cs
      | some (_, rest2) => pre ++ stripThinkFuel fuel rest2

def stripThink (cs : List Char) : List Char := stripThinkFuel cs.length cs

/-- The cleaning applied to a 200 response body in `ask_ai_api`: strip the
`<think>` block, then `str.strip()` the result. -/
def cleanText (s : String) : String := pyStrip (String.mk (stripThink s.data))

/-- The observable outcome of one attempt in `ask_ai_api`: an HTTP response
with its status and, for parsing purposes, the extracted
`choices[0].message.content` (`none` models the KeyError/IndexError shape
failure); a timeout (`asyncio.TimeoutError`); a connection failure
(`aiohttp.ClientError`); or any other exception (a `json.JSONDecodeError` on
a 200 body also lands here, being a `ValueError`). -/
inductive ApiOutcome
  | http (status : Nat) (content : Option String)
  | timeout
  | connError
  | otherError
deriving Repr, DecidableEq

/-- An attempt succeeds when the status is 200 and the content extraction
worked. -/
def isSuccess : ApiOutcome → Bool
  | .http status (some _) => status == 200
  | _ => false

def successText : ApiOutcome → String
  | .http _ (some t) => t
  | _ => ""

def parseApology : String :=
  "Извините, не удалось обработать ответ AI. Попробуйте позже."

def statusApology (status : Nat) : String :=
  "Извините, API временно недоступен (код " ++ toString status ++ "). Попробуйте позже."

def timeoutApology : String :=
  "Извините, превышено время ожидания ответа. Попробуйте позже."

def connApology : String :=
  "Извините, ошибка соединения с сервером. Попробуйте позже."

def unexpectedApology : String :=
  "Извините, произошла неожиданная ошибка. Попробуйте позже."

def exhaustedApology : String :=
  "Извините, не удалось получить ответ после нескольких попыток."

/-- One iteration body of the retry loop: `some r` when this attempt returns
`r` to the caller, `none` when it falls through to the next attempt. -/
def attemptResult (isLast : Bool) : ApiOutcome → Option String
  | .http status content =>
    if status == 200 then
      match content with
      | some text => some (cleanText text)
      | none => if isLast then some parseApology else none
    else if isLast then some (statusApology status) else none
  | .timeout => if isLast then some timeoutApology else none
  | .connError => if isLast then some connApology else none
  | .otherError => if isLast then some unexpectedApology else none

/-- The apology string a failing outcome produces on the final attempt. -/
def failApology : ApiOutcome → String
  | .http status _ => if status == 200 then parseApology else statusApology status
  | .timeout => timeoutApology
  | .connError => connApology
  | .otherError => unexpectedApology

/-- `for attempt in range(max_retries)` of `ask_ai_api`, with the
`await asyncio.sleep(2 ** attempt)` executed between attempts (never after
the last).  Returns the reply string and the chronological list of sleep
durations.  The fuel is the number of remaining iterations
(`max_retries - attempt`). -/
def askAiLoop (outcomes : Nat → ApiOutcome) (maxRetries : Nat) :
    Nat → Nat → String × List Nat
  | _, 0 => (exhaustedApology, [])
  | attempt, rem + 1 =>
    match attemptResult (attempt == maxRetries - 1) (outcomes attempt) with
    | some r => (r, [])
    | none =>
      let tail := askAiLoop outcomes maxRetries (attempt + 1) rem
      if attempt < maxRetries - 1 then (tail.1, 2 ^ attempt :: tail.2) else tail

/-- `ask_ai_api(system_prompt, user_prompt)` with the default
`max_retries = 3`, as a function of the per-attempt outcomes. -/
def ask_ai_api (outcomes : Nat → ApiOutcome) : String × List Nat :=
  askAiLoop outcomes 3 0 3

theorem attemptResult_success {oc : ApiOutcome} (h : isSuccess oc = true) (b : Bool) :
    attemptResult b oc = some (cleanText (successText oc)) := by
  cases oc with
  | http status content =>
    cases content with
    | none => simp [isSuccess] at h
    | some t =>
      simp only [isSuccess] at h
      simp [attemptResult, successText, h]
  | timeout => simp [isSuccess] at h
  | connError => simp [isSuccess] at h
  | otherError => simp [isSuccess] at h

theorem attemptResult_fail_not_last {oc : ApiOutcome} (h : isSuccess oc = false) :
    attemptResult false oc = none := by
  cases oc with
  | http status content =>
    cases content with
    | none => cases h200 : status == 200 <;> simp [attemptResult, h200]
    | some t =>
      simp only [isSuccess] at h
      simp [attemptResult, h]
  | timeout => simp [attemptResult]
  | connError => simp [attemptResult]
  | otherError => simp [attemptResult]

theorem attemptResult_fail_last {oc : ApiOutcome} (h : isSuccess oc = false) :
    attemptResult true oc = some (failApology oc) := by
  cases oc with
  | http status content =>
    cases content with
    | none => cases h200 : status == 200 <;> simp [attemptResult, failApology, h200]
    | some t =>
      simp only [isSuccess] at h
      simp [attemptResult, failApology, h]
  | timeout => simp [attemptResult, failApology]
  | connError => simp [attemptResult, failApology]
  | otherError => simp [attemptResult, failApology]

/-- Closed form of the 3-attempt retry loop: the cleaned content of the first
successful attempt together with the sleeps taken so far, or the apology of
the final attempt after three failures with sleeps 1s and 2s. -/
theorem ask_ai_api_eq (outcomes : Nat → ApiOutcome) :
    ask_ai_api outcomes =
      if isSuccess (outcomes 0) then (cleanText (successText (outcomes 0)), [])
      else if isSuccess (outcomes 1) then (cleanText (successText (outcomes 1)), [1])
      else if isSuccess (outcomes 2) then (cleanText (successText (outcomes 2)), [1, 2])
      else (failApology (outcomes 2), [1, 2]) := by
  by_cases h0 : isSuccess (outcomes 0) = true
  · simp [ask_ai_api, askAiLoop, attemptResult_success h0, h0]
  · have h0f : isSuccess (outcomes 0) = false := by simpa using h0
    by_cases h1 : isSuccess (outcomes 1) = true
    · simp [ask_ai_api, askAiLoop, attemptResult_success h1,
        attemptResult_fail_not_last h0f, h0f, h1]
    · have h1f : isSuccess (outcomes 1) = false := by simpa using h1
      by_cases h2 : isSuccess (outcomes 2) = true
      · simp [ask_ai_api, askAiLoop, attemptResult_success h2,
          attemptResult_fail_not_last h0f, attemptResult_fail_not_last h1f, h0f, h1f, h2]
      · have h2f : isSuccess (outcomes 2) = false := by simpa using h2
        simp [ask_ai_api, askAiLoop, attemptResult_fail_not_last h0f,
          attemptResult_fail_not_last h1f, attemptResult_fail_last h2f, h0f, h1f, h2f]

/-- Claim C5: `ask_ai_api` never throws: for every pattern of outcomes across
its attempts it returns a string — the cleaned content of the first
successful attempt, or, only after all three attempts failed, the apology
keyed to the failure category of the final attempt (parse failure, non-200
status with the code embedded, timeout, connection error, or the generic one
for unclassified exceptions). -/
theorem C5_thm (outcomes : Nat → ApiOutcome) :
    (∃ i, i < 3 ∧ isSuccess (outcomes i) = true ∧
      (∀ j, j < i → isSuccess (outcomes j) = false) ∧
      (ask_ai_api outcomes).1 = cleanText (successText (outcomes i))) ∨
    ((∀ j, j < 3 → isSuccess (outcomes j) = false) ∧
      (ask_ai_api outcomes).1 = failApology (outcomes 2)) := by
  by_cases h0 : isSuccess (outcomes 0) = true
  · refine Or.inl ⟨0, by omega, h0, ?_, ?_⟩
    · intro j hj; exact absurd hj (by omega)
    · rw [ask_ai_api_eq]; simp [h0]
  · have h0f : isSuccess (outcomes 0) = false := by simpa using h0
    by_cases h1 : isSuccess (outcomes 1) = true
    · refine Or.inl ⟨1, by omega, h1, ?_, ?_⟩
      · intro j hj
        have hj0 : j = 0 := by omega
        subst hj0; exact h0f
      · rw [ask_ai_api_eq]; simp [h0f, h1]
    · have h1f : isSuccess (outcomes 1) = false := by simpa using h1
      by_cases h2 : isSuccess (outcomes 2) = true
      · refine Or.inl ⟨2, by omega, h2, ?_, ?_⟩
        · intro j hj
          have hj01 : j = 0 ∨ j = 1 := by omega
          rcases hj01 with hj0 | hj1
          · subst hj0; exact h0f
          · subst hj1; exact h1f
        · rw [ask_ai_api_eq]; simp [h0f, h1f, h2]
      · have h2f : isSuccess (outcomes 2) = false := by simpa using h2
        refine Or.inr ⟨?_, ?_⟩
        · intro j hj
          have hj012 : j = 0 ∨ j = 1 ∨ j = 2 := by omega
          rcases hj012 with hj0 | hj1 | hj2
          · subst hj0; exact h0f
          · subst hj1; exact h1f
          · subst hj2; exact h2f
        · rw [ask_ai_api_eq]; simp [h0f, h1f, h2f]

theorem C5_witness :
    (∃ i, i < 3 ∧ isSuccess ((fun _ => ApiOutcome.timeout) i) = true ∧
      (∀ j, j < i → isSuccess ((fun _ => ApiOutcome.timeout) j) = false) ∧
      (ask_ai_api (fun _ => ApiOutcome.timeout)).1 =
        cleanText (successText ((fun _ => ApiOutcome.timeout) i))) ∨
    ((∀ j, j < 3 → isSuccess ((fun _ => ApiOutcome.timeout) j) = false) ∧
      (ask_ai_api (fun _ => ApiOutcome.timeout)).1 =
        failApology ((fun _ => ApiOutcome.timeout) 2)) :=
  C5_thm (fun _ => ApiOutcome.timeout)

/-- Claim C6: the client makes at most 3 attempts (its result depends only on
the first three outcomes); the backoff sleeps taken are `2^attempt` seconds
between consecutive attempts and never after the last, so the sleep list is
always a prefix of `[1, 2]`; and a run whose first two attempts fail and whose
third succeeds returns the cleaned content of the third attempt after
sleeping 1s then 2s. -/
theorem C6_thm :
    (∀ o o2 : Nat → ApiOutcome, (∀ i, i < 3 → o i = o2 i) →
      ask_ai_api o = ask_ai_api o2) ∧
    (∀ o : Nat → ApiOutcome,
      (ask_ai_api o).2 = [] ∨ (ask_ai_api o).2 = [1] ∨ (ask_ai_api o).2 = [1, 2]) ∧
    (∀ (o : Nat → ApiOutcome) (t : String),
      isSuccess (o 0) = false → isSuccess (o 1) = false →
      o 2 = ApiOutcome.http 200 (some t) →
      ask_ai_api o = (cleanText t, [1, 2])) := by
  refine ⟨?_, ?_, ?_⟩
  · intro o o2 h
    rw [ask_ai_api_eq, ask_ai_api_eq, h 0 (by omega), h 1 (by omega), h 2 (by omega)]
  · intro o
    rw [ask_ai_api_eq]
    by_cases h0 : isSuccess (o 0) = true
    · simp [h0]
    · have h0f : isSuccess (o 0) = false := by simpa using h0
      by_cases h1 : isSuccess (o 1) = true
      · simp [h0f, h1]
      · have h1f : isSuccess (o 1) = false := by simpa using h1
        by_cases h2 : isSuccess (o 2) = true
        · simp [h0f, h1f, h2]
        · have h2f : isSuccess (o 2) = false := by simpa using h2
          simp [h0f, h1f, h2f]
  · intro o t h0 h1 h2
    rw [ask_ai_api_eq, h2]
    have hs : isSuccess (ApiOutcome.http 200 (some t)) = true := by simp [isSuccess]
    have hc : successText (ApiOutcome.http 200 (some t)) = t := rfl
    simp [h0, h1, hs, hc]

theorem C6_witness :
    ask_ai_api (fun i => if i = 2
        then ApiOutcome.http 200 (some " готов <think>мысли</think> ")
        else ApiOutcome.timeout) =
      ("готов", [1, 2]) := by
  rw [C6_thm.2.2 (fun i => if i = 2
        then ApiOutcome.http 200 (some " готов <think>мысли</think> ")
        else ApiOutcome.timeout) " готов <think>мысли</think> " rfl rfl rfl]
  rfl

/-! ## ResponseParser: the regex parsing in `handle_vacancy` (src/bot.py:626-661)

The two patterns are `НАЗВАНИЕ:\s*(.+?)(?:\n|$)` with `re.IGNORECASE` and
`ТЕКСТ ОТКЛИКА:\s*(.+)` with `re.IGNORECASE | re.DOTALL`.  `re.search` scans
start positions left to right; at an occurrence of the literal, the greedy
`\s*` prefers the longest whitespace run and backtracks, the lazy `(.+?)`
takes the shortest nonempty run of non-newline characters ending at a newline
or the end, and the greedy dotall `(.+)` takes everything to the end. -/

/-- Case-insensitive marker check at the head of a text (matching a literal
pattern under `re.IGNORECASE`). -/
def ciStartsWith : List Char → List Char → Bool
  | [], _ => true
  | _ :: _, [] => false
  | p :: ps, c :: cs => (charFold p == charFold c) && ciStartsWith ps cs

/-- The marker case-insensitively occurs somewhere in the text. -/
def containsCI (m : List Char) : List Char → Bool
  | [] => ciStartsWith m []
  | c :: cs => ciStartsWith m (c :: cs) || containsCI m cs

def titleLit : List Char := "НАЗВАНИЕ:".data

def bodyLit : List Char := "ТЕКСТ ОТКЛИКА:".data

/-- One backtracking attempt of `\s*(.+?)(?:\n|$)` with `\s*` consuming `j`
characters: it succeeds iff a non-newline character follows, and the lazy
group captures the run up to the next newline or the end. -/
def titleTryAt (rest : List Char) (j : Nat) : Option (List Char) :=
  match rest.drop j with
  | [] => none
  | c :: cs =>
    if c = '\n' then none
    else some ((c :: cs).takeWhile (fun x => !(x == '\n')))

/-- Backtracking of the greedy `\s*`: longest whitespace prefix first. -/
def titleBacktrack (rest : List Char) : Nat → Option (List Char)
  | 0 => titleTryAt rest 0
  | j + 1 =>
    match titleTryAt rest (j + 1) with
    | some g => some g
    | none => titleBacktrack rest j

/-- Group 1 of `\s*(.+?)(?:\n|$)` matched directly after the title literal. -/
def titleMatchAfter (rest : List Char) : Option (List Char) :=
  titleBacktrack rest ((rest.takeWhile isWs).length)

/-- `re.search(r'НАЗВАНИЕ:\s*(.+?)(?:\n|$)', response, re.IGNORECASE)`,
returning group 1 of the leftmost successful match. -/
def titleSearch : List Char → Option (List Char)
  | [] => none
  | c :: cs =>
    if ciStartsWith titleLit (c :: cs) then
      match titleMatchAfter ((c :: cs).drop titleLit.length) with
      | some g => some g
      | none => titleSearch cs
    else titleSearch cs

/-- Group 1 of `\s*(.+)` (DOTALL) matched directly after the body literal:
greedy `\s*`, then `(.+)` takes everything to the end (at least one character,
newlines included); when only whitespace remains the `\s*` backtracks so the
capture is the final character; it fails only when nothing follows. -/
def bodyMatchAfter (rest : List Char) : Option (List Char) :=
  match rest with
  | [] => none
  | _ :: _ =>
    let k := (rest.takeWhile isWs).length
    if k < rest.length then some (rest.drop k)
    else some (rest.drop (rest.length - 1))

/-- `re.search(r'ТЕКСТ ОТКЛИКА:\s*(.+)', response, re.IGNORECASE | re.DOTALL)`. -/
def bodySearch : List Char → Option (List Char)
  | [] => none
  | c :: cs =>
    if ciStartsWith bodyLit (c :: cs) then
      match bodyMatchAfter ((c :: cs).drop bodyLit.length) with
      | some g => some g
      | none => bodySearch cs
    else bodySearch cs

/-- The marker parsing of `handle_vacancy`: both regexes must match and each
captured group is `.strip()`ped; otherwise no structured result. -/
def parseResponse (response : String) : Option (String × String) :=
  match titleSearch response.data, bodySearch response.data with
  | some tg, some bg => some (pyStrip (String.mk tg), pyStrip (String.mk bg))
  | _, _ => none

def truncNotice : String := "\n\n(ответ укорочен)"

/-- `if len(response) > 4000: response = response[:4000] + '\n\n(ответ укорочен)'`
(src/bot.py:626-627). -/
def truncateResponse (r : String) : String :=
  if r.length > 4000 then String.mk (r.data.take 4000) ++ truncNotice else r

def titleMessage (t : String) : String :=
  "✅ Отклик готов!\n\n━━━━━━━━━━━━━━━━━━\n📌 НАЗВАНИЕ:\n" ++ t ++
    "\n━━━━━━━━━━━━━━━━━━"

def bodyMessage (b : String) : String :=
  "━━━━━━━━━━━━━━━━━━\n📝 ТЕКСТ ОТКЛИКА:\n\n" ++ b ++
    "\n━━━━━━━━━━━━━━━━━━\n\n💡 Выделите текст для копирования"

/-- The output path of `handle_vacancy` on the (already truncated) response:
two messages when both markers parse, the raw text as a single message
otherwise. -/
def vacancyOutput (t : String) : List String :=
  match parseResponse t with
  | some (a, b) => [titleMessage a, bodyMessage b]
  | none => [t]

/-- The messages `handle_vacancy` sends for a raw generated response:
truncation first, then marker parsing. -/
def vacancyMessages (r : String) : List String :=
  vacancyOutput (truncateResponse r)

/-- A raw string containing both markers at their canonical positions: a
title-marker line, then the body marker followed by the body text. -/
def mkRaw (title body : String) : String :=
  "НАЗВАНИЕ: " ++ title ++ "\n" ++ "ТЕКСТ ОТКЛИКА: " ++ body

/-! ### List and scanning lemmas for the parser -/

theorem ciStartsWith_append_self (m r : List Char) :
    ciStartsWith m (m ++ r) = true := by
  induction m with
  | nil => rfl
  | cons p ps ih => simp [ciStartsWith, ih]

theorem ciStartsWith_length_le {m l : List Char} (h : ciStartsWith m l = true) :
    m.length ≤ l.length := by
  induction m generalizing l with
  | nil => simp
  | cons p ps ih =>
    cases l with
    | nil => simp [ciStartsWith] at h
    | cons c cs =>
      simp only [ciStartsWith, Bool.and_eq_true] at h
      have := ih h.2
      simp only [List.length_cons]
      omega

theorem ciStartsWith_append_of_le {m l : List Char} (t : List Char)
    (h : m.length ≤ l.length) : ciStartsWith m (l ++ t) = ciStartsWith m l := by
  induction m generalizing l with
  | nil => simp [ciStartsWith]
  | cons p ps ih =>
    cases l with
    | nil => simp at h
    | cons c cs =>
      have h2 : ciStartsWith ps (cs ++ t) = ciStartsWith ps cs := ih (by simpa using h)
      simp [ciStartsWith, h2]

theorem containsCI_eq_false_drop {m l : List Char} (h : containsCI m l = false) (n : Nat) :
    ciStartsWith m (l.drop n) = false := by
  induction l generalizing n with
  | nil =>
    simp only [containsCI] at h
    simpa using h
  | cons c cs ih =>
    simp only [containsCI, Bool.or_eq_false_iff] at h
    cases n with
    | zero => exact h.1
    | succ k => exact ih h.2 k

/-- A case-insensitive marker containing no newline cannot match across a
newline that sits within its window. -/
theorem ciStartsWith_across_newline :
    ∀ (m u v : List Char), (∀ c ∈ m, charFold c ≠ '\n') → u.length < m.length →
      ciStartsWith m (u ++ '\n' :: v) = false := by
  intro m u
  induction u generalizing m with
  | nil =>
    intro v hm hlen
    cases m with
    | nil => simp at hlen
    | cons p ps =>
      have hp : charFold p ≠ '\n' := hm p (by simp)
      have hfold : charFold '\n' = '\n' := rfl
      simp [ciStartsWith, hfold, hp]
  | cons a u2 ih =>
    intro v hm hlen
    cases m with
    | nil => simp at hlen
    | cons p ps =>
      have h2 : ciStartsWith ps (u2 ++ '\n' :: v) = false :=
        ih ps v (fun c hc => hm c (List.mem_cons_of_mem p hc)) (by simpa using hlen)
      simp [ciStartsWith, h2]

theorem dropWhile_idem (p : Char → Bool) (l : List Char) :
    (l.dropWhile p).dropWhile p = l.dropWhile p := by
  induction l with
  | nil => rfl
  | cons a l ih =>
    by_cases h : p a = true
    · simp [List.dropWhile_cons_of_pos h, ih]
    · simp [List.dropWhile_cons_of_neg (by simpa using h)]

theorem pyStripList_dropWhile (l : List Char) :
    pyStripList (l.dropWhile isWs) = pyStripList l := by
  simp only [pyStripList, dropWhile_idem]

theorem pyStripList_all_ws (l : List Char) (h : ∀ c ∈ l, isWs c = true) :
    pyStripList l = [] := by
  have h1 : l.dropWhile isWs = [] := by
    rw [List.dropWhile_eq_nil_iff]
    intro x hx; simp [h x hx]
  simp [pyStripList, h1]

theorem drop_length_takeWhile (p : Char → Bool) (l : List Char) :
    l.drop (l.takeWhile p).length = l.dropWhile p := by
  induction l with
  | nil => rfl
  | cons a l ih =>
    by_cases h : p a = true
    · simp [List.takeWhile_cons_of_pos h, List.dropWhile_cons_of_pos h, ih]
    · simp [List.takeWhile_cons_of_neg (by simpa using h),
        List.dropWhile_cons_of_neg (by simpa using h)]

theorem takeWhile_append_stop {p : Char → Bool} {l₁ : List Char} {a : Char} (r : List Char)
    (h1 : ∀ c ∈ l₁, p c = true) (h2 : p a = false) :
    (l₁ ++ a :: r).takeWhile p = l₁ := by
  induction l₁ with
  | nil =>
    have hna : ¬ (p a = true) := by simp [h2]
    simp [List.takeWhile_cons_of_neg hna]
  | cons b l ih =>
    have hb : p b = true := h1 b (by simp)
    simp [List.takeWhile_cons_of_pos hb, ih (fun c hc => h1 c (by simp [hc]))]

theorem takeWhile_append_of_exists_neg {p : Char → Bool} {l₁ : List Char} (l₂ : List Char)
    (h : ∃ c ∈ l₁, p c = false) :
    (l₁ ++ l₂).takeWhile p = l₁.takeWhile p := by
  rw [List.takeWhile_append, if_neg]
  intro hlen
  have heq : l₁.takeWhile p = l₁ := (List.takeWhile_prefix p).eq_of_length hlen
  obtain ⟨c, hc, hpc⟩ := h
  have := List.takeWhile_eq_self_iff.mp heq c hc
  simp [hpc] at this

theorem length_takeWhile_lt_of_exists_neg {p : Char → Bool} {l : List Char}
    (h : ∃ c ∈ l, p c = false) : (l.takeWhile p).length < l.length := by
  rcases Nat.lt_or_ge (l.takeWhile p).length l.length with hlt | hge
  · exact hlt
  · exfalso
    have hle : (l.takeWhile p).length ≤ l.length := (List.takeWhile_prefix p).length_le
    have hlen : (l.takeWhile p).length = l.length := le_antisymm hle hge
    have heq : l.takeWhile p = l := (List.takeWhile_prefix p).eq_of_length hlen
    obtain ⟨c, hc, hpc⟩ := h
    have := List.takeWhile_eq_self_iff.mp heq c hc
    simp [hpc] at this

theorem titleBacktrack_of_tryAt {rest g : List Char} {k : Nat}
    (h : titleTryAt rest k = some g) : titleBacktrack rest k = some g := by
  cases k with
  | zero => simpa [titleBacktrack] using h
  | succ j => simp [titleBacktrack, h]

/-- The title pattern matched right after the literal, on a line `cs` that
contains no newline but some non-whitespace character: the greedy `\s*` stops
at the first non-whitespace character and the lazy group captures the rest of
the line. -/
theorem titleMatchAfter_line (cs tail : List Char)
    (hnl : ∀ c ∈ cs, c ≠ '\n') (hws : ∃ c ∈ cs, isWs c = false) :
    titleMatchAfter (cs ++ '\n' :: tail) = some (cs.dropWhile isWs) := by
  have hk : (cs ++ '\n' :: tail).takeWhile isWs = cs.takeWhile isWs :=
    takeWhile_append_of_exists_neg _ hws
  have hklt : (cs.takeWhile isWs).length < cs.length :=
    length_takeWhile_lt_of_exists_neg hws
  have hdrop : (cs ++ '\n' :: tail).drop (cs.takeWhile isWs).length
      = cs.dropWhile isWs ++ '\n' :: tail := by
    rw [List.drop_append_of_le_length (by omega), drop_length_takeWhile]
  have hdlen : (cs.dropWhile isWs).length = cs.length - (cs.takeWhile isWs).length := by
    have hsplit : cs.takeWhile isWs ++ cs.dropWhile isWs = cs :=
      List.takeWhile_append_dropWhile isWs cs
    have := congrArg List.length hsplit
    simp only [List.length_append] at this
    omega
  obtain ⟨d, ds, hds⟩ : ∃ d ds, cs.dropWhile isWs = d :: ds := by
    cases hcase : cs.dropWhile isWs with
    | nil =>
      exfalso
      rw [hcase] at hdlen
      simp at hdlen
      omega
    | cons d ds => exact ⟨d, ds, rfl⟩
  have hmem : ∀ c ∈ cs.dropWhile isWs, c ∈ cs :=
    fun c hc => (List.dropWhile_sublist isWs).subset hc
  have hd_ne : d ≠ '\n' := hnl d (hmem d (by simp [hds]))
  have htry : titleTryAt (cs ++ '\n' :: tail) (cs.takeWhile isWs).length
      = some (cs.dropWhile isWs) := by
    have hshape : (cs ++ '\n' :: tail).drop (cs.takeWhile isWs).length
        = d :: (ds ++ '\n' :: tail) := by
      rw [hdrop, hds]; rfl
    have hall : ∀ c ∈ d :: ds, (fun x => !(x == '\n')) c = true := by
      intro c hc
      have : c ∈ cs := hmem c (by rw [hds]; exact hc)
      simp [hnl c this]
    have hstop : (fun x => !(x == '\n')) '\n' = false := by simp
    have htake := takeWhile_append_stop tail hall hstop
    simp only [titleTryAt, hshape]
    rw [if_neg hd_ne]
    rw [show d :: (ds ++ '\n' :: tail) = (d :: ds) ++ '\n' :: tail from rfl, htake, hds]
  rw [titleMatchAfter, hk]
  exact titleBacktrack_of_tryAt htry

/-- The body pattern matched right after the literal and its mandatory space:
the captured group strips to the same text as the body. -/
theorem bodyMatchAfter_space (bs : List Char) :
    ∃ g, bodyMatchAfter (' ' :: bs) = some g ∧ pyStripList g = pyStripList bs := by
  by_cases hws : ∃ c ∈ bs, isWs c = false
  · refine ⟨bs.dropWhile isWs, ?_, pyStripList_dropWhile bs⟩
    have hsp : isWs ' ' = true := rfl
    have hk : (' ' :: bs).takeWhile isWs = ' ' :: bs.takeWhile isWs := by
      simp [List.takeWhile_cons_of_pos hsp]
    have hklt : (bs.takeWhile isWs).length < bs.length :=
      length_takeWhile_lt_of_exists_neg hws
    simp only [bodyMatchAfter, hk]
    rw [if_pos (by simp only [List.length_cons]; omega)]
    simp [List.drop_succ_cons, drop_length_takeWhile]
  · have hall : ∀ c ∈ (' ' :: bs), isWs c = true := by
      intro c hc
      rcases List.mem_cons.mp hc with rfl | hc2
      · rfl
      · by_contra hne
        exact hws ⟨c, hc2, by simpa using hne⟩
    have hk : (' ' :: bs).takeWhile isWs = ' ' :: bs := by
      rw [List.takeWhile_eq_self_iff]
      intro x hx; simp [hall x hx]
    refine ⟨(' ' :: bs).drop ((' ' :: bs).length - 1), ?_, ?_⟩
    · simp only [bodyMatchAfter, hk]
      rw [if_neg (by simp)]
    · have hsub : ∀ c ∈ (' ' :: bs).drop ((' ' :: bs).length - 1), isWs c = true :=
        fun c hc => hall c ((List.drop_sublist _ _).subset hc)
      rw [pyStripList_all_ws _ hsub,
        pyStripList_all_ws bs (fun c hc => hall c (List.mem_cons_of_mem _ hc))]

theorem titleSearch_at_head (rest : List Char) (g : List Char)
    (hm : titleMatchAfter rest = some g) : titleSearch (titleLit ++ rest) = some g := by
  have hcons : titleLit ++ rest = 'Н' :: ("АЗВАНИЕ:".data ++ rest) := rfl
  have hpre : ciStartsWith titleLit ('Н' :: ("АЗВАНИЕ:".data ++ rest)) = true := by
    rw [← hcons]; exact ciStartsWith_append_self _ _
  have hdrop : ('Н' :: ("АЗВАНИЕ:".data ++ rest)).drop titleLit.length = rest := by
    rw [← hcons]; exact List.drop_left _ _
  rw [hcons]
  simp only [titleSearch, hpre, if_true, hdrop, hm]

theorem bodySearch_at_head (rest : List Char) (g : List Char)
    (hm : bodyMatchAfter rest = some g) : bodySearch (bodyLit ++ rest) = some g := by
  have hcons : bodyLit ++ rest = 'Т' :: ("ЕКСТ ОТКЛИКА:".data ++ rest) := rfl
  have hpre : ciStartsWith bodyLit ('Т' :: ("ЕКСТ ОТКЛИКА:".data ++ rest)) = true := by
    rw [← hcons]; exact ciStartsWith_append_self _ _
  have hdrop : ('Т' :: ("ЕКСТ ОТКЛИКА:".data ++ rest)).drop bodyLit.length = rest := by
    rw [← hcons]; exact List.drop_left _ _
  rw [hcons]
  simp only [bodySearch, hpre, if_true, hdrop, hm]

/-- The body search skips a region where the marker matches at no position. -/
theorem bodySearch_append_skip :
    ∀ (pre tail : List Char),
      (∀ n, n < pre.length → ciStartsWith bodyLit (pre.drop n ++ tail) = false) →
      bodySearch (pre ++ tail) = bodySearch tail := by
  intro pre
  induction pre with
  | nil => intro tail _; rfl
  | cons c pre2 ih =>
    intro tail h
    have h0 : ciStartsWith bodyLit (c :: (pre2 ++ tail)) = false := by
      have := h 0 (by simp)
      simpa using this
    have hrec : bodySearch (pre2 ++ tail) = bodySearch tail := by
      refine ih tail (fun n hn => ?_)
      have := h (n + 1) (by simpa using Nat.succ_lt_succ hn)
      simpa using this
    simp [bodySearch, h0, hrec]

theorem titleSearch_eq_none {l : List Char} (h : containsCI titleLit l = false) :
    titleSearch l = none := by
  induction l with
  | nil => rfl
  | cons c cs ih =>
    simp only [containsCI, Bool.or_eq_false_iff] at h
    simp [titleSearch, h.1, ih h.2]

theorem bodySearch_eq_none {l : List Char} (h : containsCI bodyLit l = false) :
    bodySearch l = none := by
  induction l with
  | nil => rfl
  | cons c cs ih =>
    simp only [containsCI, Bool.or_eq_false_iff] at h
    simp [bodySearch, h.1, ih h.2]

theorem bodyLit_no_newline : ∀ c ∈ bodyLit, charFold c ≠ '\n' := by decide

/-- Round-trip of the canonical two-marker raw string: when the title is a
newline-free line with a non-whitespace character and does not contain the
body marker, parsing recovers the stripped title and body. -/
theorem parse_mkRaw (title body : String)
    (hnl : ∀ c ∈ title.data, c ≠ '\n')
    (hws : ∃ c ∈ title.data, isWs c = false)
    (hnb : containsCI bodyLit ("НАЗВАНИЕ: ".data ++ title.data) = false) :
    parseResponse (mkRaw title body) = some (pyStrip title, pyStrip body) := by
  have h1 : "НАЗВАНИЕ: ".data = titleLit ++ [' '] := rfl
  have h2 : "ТЕКСТ ОТКЛИКА: ".data = bodyLit ++ [' '] := rfl
  have h3 : "\n".data = ['\n'] := rfl
  have hcs_nl : ∀ c ∈ (' ' :: title.data), c ≠ '\n' := by
    intro c hc
    rcases List.mem_cons.mp hc with rfl | hc2
    · decide
    · exact hnl c hc2
  have hcs_ws : ∃ c ∈ (' ' :: title.data), isWs c = false := by
    obtain ⟨c, hc, hcw⟩ := hws
    exact ⟨c, List.mem_cons_of_mem _ hc, hcw⟩
  have htma := titleMatchAfter_line (' ' :: title.data)
      (bodyLit ++ ' ' :: body.data) hcs_nl hcs_ws
  have hA : (mkRaw title body).data =
      titleLit ++ (' ' :: title.data ++ '\n' :: (bodyLit ++ ' ' :: body.data)) := by
    simp [mkRaw, titleLit, bodyLit, List.append_assoc]
  have hdw : (' ' :: title.data).dropWhile isWs = title.data.dropWhile isWs := by
    simp [List.dropWhile_cons_of_pos (show isWs ' ' = true from rfl)]
  have htitle : titleSearch (mkRaw title body).data = some (title.data.dropWhile isWs) := by
    rw [hA, titleSearch_at_head _ _ htma, hdw]
  obtain ⟨g, hg, hgstrip⟩ := bodyMatchAfter_space body.data
  have hbody : bodySearch (mkRaw title body).data = some g := by
    have hB : (mkRaw title body).data =
        (("НАЗВАНИЕ: ".data ++ title.data) ++ ['\n']) ++ (bodyLit ++ ' ' :: body.data) := by
      simp [mkRaw, titleLit, bodyLit, List.append_assoc]
    have hskip : ∀ n, n < (("НАЗВАНИЕ: ".data ++ title.data) ++ ['\n']).length →
        ciStartsWith bodyLit ((("НАЗВАНИЕ: ".data ++ title.data) ++ ['\n']).drop n ++
          (bodyLit ++ ' ' :: body.data)) = false := by
      intro n hn
      have hlen : n ≤ ("НАЗВАНИЕ: ".data ++ title.data).length := by
        simp only [List.length_append, List.length_cons, List.length_nil] at hn ⊢
        omega
      have hdropn : (("НАЗВАНИЕ: ".data ++ title.data) ++ ['\n']).drop n ++
            (bodyLit ++ ' ' :: body.data)
          = ("НАЗВАНИЕ: ".data ++ title.data).drop n ++
            '\n' :: (bodyLit ++ ' ' :: body.data) := by
        rw [List.drop_append_of_le_length hlen]
        simp [List.append_assoc]
      rw [hdropn]
      by_cases hcase : bodyLit.length ≤ (("НАЗВАНИЕ: ".data ++ title.data).drop n).length
      · rw [ciStartsWith_append_of_le _ hcase]
        exact containsCI_eq_false_drop hnb n
      · exact ciStartsWith_across_newline bodyLit _ _ bodyLit_no_newline (by omega)
    rw [hB, bodySearch_append_skip _ _ hskip]
    exact bodySearch_at_head _ _ hg
  simp only [parseResponse, htitle, hbody]
  have hts : pyStrip (String.mk (title.data.dropWhile isWs)) = pyStrip title := by
    simp [pyStrip, pyStripList_dropWhile]
  have hbs : pyStrip (String.mk g) = pyStrip body := by
    simp [pyStrip, hgstrip]
  rw [hts, hbs]

/-- Claim C7 (amended): round-trip — for a raw string built of the
title-marker line and the body marker followed by the body text, with
arbitrary body text and any title text that is a single line, contains a
non-whitespace character, and does not contain the body marker
(case-insensitively), parsing recovers exactly the stripped title and
stripped body; fallback — every raw string of at most 4000 characters in
which either marker does not occur (case-insensitively) is emitted verbatim
as a single message. -/
theorem C7_thm :
    (∀ title body : String,
      (∀ c ∈ title.data, c ≠ '\n') →
      (∃ c ∈ title.data, isWs c = false) →
      containsCI bodyLit ("НАЗВАНИЕ: ".data ++ title.data) = false →
      parseResponse (mkRaw title body) = some (pyStrip title, pyStrip body)) ∧
    (∀ raw : String, raw.length ≤ 4000 →
      (containsCI titleLit raw.data = false ∨ containsCI bodyLit raw.data = false) →
      vacancyMessages raw = [raw]) := by
  constructor
  · exact parse_mkRaw
  · intro raw hlen hmiss
    have htr : truncateResponse raw = raw := by
      rw [truncateResponse, if_neg (by omega)]
    have hparse : parseResponse raw = none := by
      rcases hmiss with ht | hb
      · rw [parseResponse, titleSearch_eq_none ht]
      · rw [parseResponse, bodySearch_eq_none hb]
        cases titleSearch raw.data <;> rfl
    rw [vacancyMessages, htr, vacancyOutput, hparse]

/-- Claim C7 counterexample: the raw string with title text `" "` and body
`"hi"` contains both markers, yet parsing does not recover the stripped title
(`""`): the greedy `\s*` swallows the all-whitespace title line together with
its newline and captures the body-marker line as the title. -/
theorem C7_cex :
    parseResponse (mkRaw " " "hi") = some ("ТЕКСТ ОТКЛИКА: hi", "hi") ∧
    parseResponse (mkRaw " " "hi") ≠ some (pyStrip " ", pyStrip "hi") := by
  constructor
  · rfl
  · decide

theorem C7_witness :
    parseResponse (mkRaw "Отклик на вакансию" "Здравствуйте! Готов помочь с задачей.") =
      some (pyStrip "Отклик на вакансию", pyStrip "Здравствуйте! Готов помочь с задачей.") ∧
    vacancyMessages "обычный ответ без маркеров" = ["обычный ответ без маркеров"] :=
  ⟨C7_thm.1 "Отклик на вакансию" "Здравствуйте! Готов помочь с задачей."
      (by decide) (by decide) (by decide),
   C7_thm.2 "обычный ответ без маркеров" (by decide) (Or.inl (by decide))⟩

/-- Claim C8 (amended): `handle_vacancy` truncates before parsing — the raw
response is cut to its first 4000 characters with the 18-character truncation
notice appended when it exceeded 4000 characters (making the text handed to
parsing and display up to 4018 characters, not 4000), and is passed through
unchanged otherwise. -/
theorem C8_thm (r : String) :
    vacancyMessages r = vacancyOutput (truncateResponse r) ∧
    (r.length ≤ 4000 → truncateResponse r = r) ∧
    (4000 < r.length →
      truncateResponse r = String.mk (r.data.take 4000) ++ truncNotice ∧
      (truncateResponse r).length = 4018) := by
  refine ⟨rfl, ?_, ?_⟩
  · intro h
    rw [truncateResponse, if_neg (by omega)]
  · intro h
    have heq : truncateResponse r = String.mk (r.data.take 4000) ++ truncNotice := by
      rw [truncateResponse, if_pos (by omega)]
    refine ⟨heq, ?_⟩
    rw [heq]
    have hdata : r.data.length = r.length := String.length_data r
    have hnotice : truncNotice.length = 18 := rfl
    simp only [String.length_append, String.length_mk, List.length_take, hnotice]
    omega

/-- Claim C8 counterexample: a 4001-character response is handed to parsing
and display as a 4018-character text — the appended truncation notice breaks
the 4000-character limit asserted by the claim. -/
theorem C8_cex :
    4000 < (truncateResponse (String.mk (List.replicate 4001 'a'))).length := by
  have hlen : (String.mk (List.replicate 4001 'a')).length = 4001 := by
    rw [String.length_mk, List.length_replicate]
  have hdata : (String.mk (List.replicate 4001 'a')).data.length = 4001 := by
    show (List.replicate 4001 'a').length = 4001
    rw [List.length_replicate]
  rw [truncateResponse, if_pos (by omega)]
  have hnotice : truncNotice.length = 18 := rfl
  simp only [String.length_append, String.length_mk, List.length_take, hnotice, hdata]
  omega

theorem C8_witness :
    truncateResponse "Отклик готов" = "Отклик готов" ∧
    (truncateResponse (String.mk (List.replicate 4001 'б'))).length = 4018 :=
  ⟨(C8_thm "Отклик готов").2.1 (by decide),
   ((C8_thm (String.mk (List.replicate 4001 'б'))).2.2
      (by rw [String.length_mk, List.length_replicate]; omega)).2⟩

/-! ## ConversationEngine: the profile-input handlers (src/bot.py:408-488) -/

/-- The FSM states of `UserStates` (src/bot.py:42-47). -/
inductive UState
  | waiting_for_name
  | waiting_for_gender
  | waiting_for_stack
  | ready_for_vacancy
  | choosing_update
deriving Repr, DecidableEq

/-- The messages the two profile-input handlers can send, one constructor per
`message.answer` call site (payload: the text interpolated into the copy). -/
inductive Msg
  | validationError (text : String)
  | nameSavedPromptGender (name : String)
  | nameChangedPromptVacancy (name : String)
  | nameRetry
  | genderReprompt
  | genderSavedPromptStack (gender : String)
  | genderChangedPromptVacancy (gender : String)
  | genderRetry
deriving Repr, DecidableEq

/-- What a handler invocation produces: the messages sent, the FSM state in
force afterwards, and the storage contents afterwards. -/
structure HandlerOut where
  msgs : List Msg
  state : UState
  db : Db

def MIN_NAME_LENGTH : Nat := 2

def MAX_NAME_LENGTH : Nat := 100

/-- The character class of the name regex `^[а-яА-ЯёЁa-zA-Z\s\-]+$`. -/
def isNameChar (c : Char) : Bool :=
  ('а' ≤ c && c ≤ 'я') || ('А' ≤ c && c ≤ 'Я') || c == 'ё' || c == 'Ё' ||
    ('a' ≤ c && c ≤ 'z') || ('A' ≤ c && c ≤ 'Z') || isWs c || c == '-'

def nameTooShortMsg : String := "❌ Имя слишком короткое. Минимум 2 символа."

def nameTooLongMsg : String := "❌ Имя слишком длинное. Максимум 100 символов."

def nameBadCharsMsg : String := "❌ Имя может содержать только буквы, пробелы и дефисы."

/-- `validate_name(name)` (src/bot.py:198-206): `(is_valid, error_message)`.
The anchored `+`-regex requires every character to be in the class (the
nonempty requirement is subsumed by the minimum length check before it). -/
def validate_name (name : String) : Bool × String :=
  if name.length < MIN_NAME_LENGTH then (false, nameTooShortMsg)
  else if name.length > MAX_NAME_LENGTH then (false, nameTooLongMsg)
  else if !(name.data.all isNameChar) then (false, nameBadCharsMsg)
  else (true, "")

/-- The membership test `gender not in [..]` of `handle_gender_input`
(src/bot.py:452), affirmed. -/
def genderAccepted (g : String) : Bool := g == "мужской" || g == "женский"

/-- `handle_name_input` (src/bot.py:408-442).  The `writeFail` flag injects a
storage exception raised by `update_user_info`; the outer `except` catches
it, sends the retry message, and neither storage nor the FSM state is
touched. -/
def handle_name_input (writeFail : Bool) (db : Db) (now : Nat) (uid : Int)
    (text : String) (updating_all : Bool) : HandlerOut :=
  let name := pyStrip text
  let v := validate_name name
  if v.1 = false then
    { msgs := [Msg.validationError v.2], state := UState.waiting_for_name, db := db }
  else if writeFail then
    { msgs := [Msg.nameRetry], state := UState.waiting_for_name, db := db }
  else
    let db2 := update_user_info db now uid (some name) none
    let complete := is_profile_complete false db2 uid
    if updating_all || !complete then
      { msgs := [Msg.nameSavedPromptGender name], state := UState.waiting_for_gender,
        db := db2 }
    else
      { msgs := [Msg.nameChangedPromptVacancy name], state := UState.ready_for_vacancy,
        db := db2 }

/-- `handle_gender_input` (src/bot.py:445-488), with the same `writeFail`
injection.  After a successful `update_user_info` the row exists, so the
re-read used for the `was_complete` check always finds it (the `getD`
default is unreachable). -/
def handle_gender_input (writeFail : Bool) (db : Db) (now : Nat) (uid : Int)
    (text : String) (updating_all : Bool) : HandlerOut :=
  let gender := pyLower (pyStrip text)
  if !(genderAccepted gender) then
    { msgs := [Msg.genderReprompt], state := UState.waiting_for_gender, db := db }
  else if writeFail then
    { msgs := [Msg.genderRetry], state := UState.waiting_for_gender, db := db }
  else
    let db2 := update_user_info db now uid none (some gender)
    let p := (get_user_data false db2 uid).getD
      { name := none, gender := none, tech_stack := none }
    let was_complete := truthyStr p.name && truthyStr p.tech_stack
    if updating_all || !was_complete then
      { msgs := [Msg.genderSavedPromptStack gender], state := UState.waiting_for_stack,
        db := db2 }
    else
      { msgs := [Msg.genderChangedPromptVacancy gender], state := UState.ready_for_vacancy,
        db := db2 }

/-- After an accepted gender and a successful write, the storage seen by the
rest of the handler is exactly the partial update with the lowercased label
(both continuation branches carry the same storage). -/
theorem handle_gender_db_eq (db : Db) (now : Nat) (uid : Int) (text : String) (ua : Bool)
    (hacc : genderAccepted (pyLower (pyStrip text)) = true) :
    (handle_gender_input false db now uid text ua).db =
      update_user_info db now uid none (some (pyLower (pyStrip text))) := by
  simp only [handle_gender_input, hacc, Bool.not_true, Bool.false_eq_true, if_false,
    if_true]
  rw [apply_ite HandlerOut.db]
  simp

/-- Claim C2 counterexample: a storage failure during the profile read is not
surfaced as anything distinguishable: `get_user_data` returns `None` — the
very value meaning "not found" — even though a row exists. -/
theorem C2_cex :
    get_user_data true
        (fun _ => some { name := some "Ann", gender := some "женский",
                         tech_stack := some "py", created_at := 0 }) 1 = none ∧
    get_user_data false (fun _ => none) 1 = none :=
  ⟨rfl, rfl⟩

/-- Claim C2 (amended): the profile read returns the full profile when a row
exists and `None` otherwise; a storage failure during the read is logged and
swallowed — `get_user_data` returns `None`, indistinguishable from "not
found", rather than a distinguishable StorageError — and does not crash;
storage failures in the write path are re-raised and caught at the handler
boundary, where the user receives the generic retry message with state and
storage unchanged. -/
theorem C2_thm (db : Db) (uid : Int) :
    (∀ r, db uid = some r →
      get_user_data false db uid =
        some { name := r.name, gender := r.gender, tech_stack := r.tech_stack }) ∧
    (db uid = none → get_user_data false db uid = none) ∧
    (get_user_data true db uid = none) ∧
    (∀ now text ua, (validate_name (pyStrip text)).1 = true →
      (handle_name_input true db now uid text ua).msgs = [Msg.nameRetry] ∧
      (handle_name_input true db now uid text ua).state = UState.waiting_for_name ∧
      (handle_name_input true db now uid text ua).db = db) := by
  refine ⟨?_, ?_, ?_, ?_⟩
  · intro r h
    simp [get_user_data, h]
  · intro h
    simp [get_user_data, h]
  · simp [get_user_data]
  · intro now text ua hv
    refine ⟨?_, ?_, ?_⟩ <;> simp [handle_name_input, hv]

theorem C2_witness :
    get_user_data false
        (fun i => if i = 1 then
            some { name := some "Ann", gender := some "женский",
                   tech_stack := some "py", created_at := 2 }
          else none) 1 =
      some { name := some "Ann", gender := some "женский", tech_stack := some "py" } ∧
    (handle_name_input true (fun _ => none) 0 1 "Ann" false).msgs = [Msg.nameRetry] :=
  ⟨(C2_thm _ 1).1
      { name := some "Ann", gender := some "женский",
        tech_stack := some "py", created_at := 2 } rfl,
   ((C2_thm (fun _ => none) 1).2.2.2 0 "Ann" false (by decide)).1⟩

/-- Claim C9: in the profile-input handlers (name, gender), a storage error
raised inside the handler body is caught at the handler boundary: the user
gets the generic retry message, the conversation state stays unchanged, and
storage stays unchanged — the session state advances only after the write
succeeded, and no error propagates (the embedded handlers are total). -/
theorem C9_thm (db : Db) (now : Nat) (uid : Int) (text : String) (ua : Bool) :
    (handle_name_input true db now uid text ua).state = UState.waiting_for_name ∧
    (handle_name_input true db now uid text ua).db = db ∧
    ((validate_name (pyStrip text)).1 = true →
      (handle_name_input true db now uid text ua).msgs = [Msg.nameRetry]) ∧
    (handle_gender_input true db now uid text ua).state = UState.waiting_for_gender ∧
    (handle_gender_input true db now uid text ua).db = db ∧
    (genderAccepted (pyLower (pyStrip text)) = true →
      (handle_gender_input true db now uid text ua).msgs = [Msg.genderRetry]) := by
  refine ⟨?_, ?_, ?_, ?_, ?_, ?_⟩
  · by_cases h : (validate_name (pyStrip text)).1 = true
    · simp [handle_name_input, h]
    · have hf : (validate_name (pyStrip text)).1 = false := by simpa using h
      simp [handle_name_input, hf]
  · by_cases h : (validate_name (pyStrip text)).1 = true
    · simp [handle_name_input, h]
    · have hf : (validate_name (pyStrip text)).1 = false := by simpa using h
      simp [handle_name_input, hf]
  · intro h
    simp [handle_name_input, h]
  · by_cases h : genderAccepted (pyLower (pyStrip text)) = true
    · simp [handle_gender_input, h]
    · have hf : genderAccepted (pyLower (pyStrip text)) = false := by simpa using h
      simp [handle_gender_input, hf]
  · by_cases h : genderAccepted (pyLower (pyStrip text)) = true
    · simp [handle_gender_input, h]
    · have hf : genderAccepted (pyLower (pyStrip text)) = false := by simpa using h
      simp [handle_gender_input, hf]
  · intro h
    simp [handle_gender_input, h]

theorem C9_witness :
    (handle_name_input true (fun _ => none) 0 1 "Анна" false).msgs = [Msg.nameRetry] ∧
    (handle_name_input true (fun _ => none) 0 1 "Анна" false).state =
      UState.waiting_for_name ∧
    (handle_gender_input true (fun _ => none) 0 1 "Мужской" false).msgs =
      [Msg.genderRetry] ∧
    (handle_gender_input true (fun _ => none) 0 1 "Мужской" false).db = (fun _ => none) :=
  ⟨(C9_thm (fun _ => none) 0 1 "Анна" false).2.2.1 (by decide),
   (C9_thm (fun _ => none) 0 1 "Анна" false).1,
   (C9_thm (fun _ => none) 0 1 "Мужской" false).2.2.2.2.2 (by decide),
   (C9_thm (fun _ => none) 0 1 "Мужской" false).2.2.2.2.1⟩

/-- Claim C10 (implicit invariant): whatever the casing of the user input,
the gender handler either leaves the user row untouched or the row it wrote
holds one of the two accepted labels in lowercase; and when the lowercased
stripped input is accepted and the write succeeds, the stored gender is
exactly that lowercase label. -/
theorem C10_thm (writeFail : Bool) (db : Db) (now : Nat) (uid : Int)
    (text : String) (ua : Bool) :
    ((handle_gender_input writeFail db now uid text ua).db uid = db uid ∨
      (∃ r, (handle_gender_input writeFail db now uid text ua).db uid = some r ∧
        (r.gender = some "мужской" ∨ r.gender = some "женский"))) ∧
    (genderAccepted (pyLower (pyStrip text)) = true → writeFail = false →
      ∃ r, (handle_gender_input writeFail db now uid text ua).db uid = some r ∧
        r.gender = some (pyLower (pyStrip text))) := by
  constructor
  · by_cases hacc : genderAccepted (pyLower (pyStrip text)) = true
    · cases writeFail with
      | true =>
        left
        simp [handle_gender_input, hacc]
      | false =>
        right
        rw [handle_gender_db_eq db now uid text ua hacc]
        have hor : pyLower (pyStrip text) = "мужской" ∨ pyLower (pyStrip text) = "женский" := by
          simpa [genderAccepted] using hacc
        cases hdb : db uid with
        | some r0 =>
          refine ⟨{ r0 with gender := some (pyLower (pyStrip text)) }, ?_, ?_⟩
          · simp [update_user_info, hdb, optKeep]
          · rcases hor with h | h <;> simp [h]
        | none =>
          refine ⟨{ name := none, gender := some (pyLower (pyStrip text)),
                    tech_stack := some "", created_at := now }, ?_, ?_⟩
          · simp [update_user_info, hdb]
          · rcases hor with h | h <;> simp [h]
    · left
      have hf : genderAccepted (pyLower (pyStrip text)) = false := by simpa using hacc
      simp [handle_gender_input, hf]
  · intro hacc hw
    subst hw
    rw [handle_gender_db_eq db now uid text ua hacc]
    cases hdb : db uid with
    | some r0 =>
      exact ⟨{ r0 with gender := some (pyLower (pyStrip text)) },
        by simp [update_user_info, hdb, optKeep], rfl⟩
    | none =>
      exact ⟨{ name := none, gender := some (pyLower (pyStrip text)),
               tech_stack := some "", created_at := now },
        by simp [update_user_info, hdb], rfl⟩

theorem C10_witness :
    ∃ r, (handle_gender_input false (fun _ => none) 4 1 "  МУЖСКОЙ  " false).db 1 = some r ∧
      r.gender = some (pyLower (pyStrip "  МУЖСКОЙ  ")) :=
  (C10_thm false (fun _ => none) 4 1 "  МУЖСКОЙ  " false).2 (by decide) rfl

end KworkBot
